import Mathlib

/-!
Verification of the EnergizeCT rate-watch bot (src/energybot.py) against its
specification.  The Python source is shallowly embedded below: pure helpers
become Lean functions, the command handlers and the daily task become explicit
state-passing functions, Python `Decimal` values are represented exactly as an
integer numerator together with a power-of-ten denominator, and the external
collaborators (network fetch, message delivery) become explicit parameters.
Canonical 5-digit rates are represented as natural numbers in units of 10^(-5).
-/

deriving instance DecidableEq for Except

namespace EnergyBot

/-- ASCII decimal digit test, modelling the digit class used by the Python
regex and by the `Decimal` constructor on the inputs this program handles. -/
def isDig (c : Char) : Bool := 48 ≤ c.toNat && c.toNat ≤ 57

/-- Numeric value of a digit string, most significant digit first. -/
def digitsVal (l : List Char) : Nat :=
  l.foldl (fun a c => 10 * a + (c.toNat - 48)) 0

/-- Python `str.strip`: drop whitespace from both ends of the character list. -/
def pyStrip (l : List Char) : List Char :=
  ((l.dropWhile Char.isWhitespace).reverse.dropWhile Char.isWhitespace).reverse

/-- Exact value of a finite decimal numeral: `num / 10 ^ exp10`.
This models the Python `Decimal` values this program constructs. -/
structure Dec where
  num : Int
  exp10 : Nat
deriving DecidableEq

/-- Signed integer from a sign flag and a magnitude. -/
def sgn (neg : Bool) (n : Nat) : Int := if neg then -(n : Int) else (n : Int)

/-- Body of the `Decimal` literal grammar after an optional sign: digits,
optionally followed by a dot and further digits, with at least one digit
overall (this is the fragment of the `Decimal` grammar exercised by the
feed strings, the stored rate strings and the user input; exponents and
the special values are outside the model). -/
def decCore (neg : Bool) (l : List Char) : Option Dec :=
  let ip := l.takeWhile isDig
  match l.dropWhile isDig with
  | [] => if ip.isEmpty then none else some ⟨sgn neg (digitsVal ip), 0⟩
  | '.' :: fp =>
      if fp.all isDig && (!ip.isEmpty || !fp.isEmpty) then
        some ⟨sgn neg (digitsVal (ip ++ fp)), fp.length⟩
      else none
  | _ => none

/-- Python `Decimal(s)` on a stripped character list: optional sign then the
digit body; `none` models the `InvalidOperation` exception. -/
def decimalOfChars : List Char → Option Dec
  | [] => none
  | c :: r =>
      if c = '-' then decCore true r
      else if c = '+' then decCore false r
      else decCore false (c :: r)

/-- Quantization `d.quantize(Decimal("0.00001"), rounding=ROUND_HALF_UP)` for a
nonnegative decimal `d`, returning the result in units of 10^(-5).  Round half
up on a nonnegative value is: add half of the discarded unit, then floor. -/
def quantize5Nat (d : Dec) : Nat :=
  if d.exp10 ≤ 5 then d.num.toNat * 10 ^ (5 - d.exp10)
  else (2 * d.num.toNat + 10 ^ (d.exp10 - 5)) / (2 * 10 ^ (d.exp10 - 5))

/-- Reference formula for rounding a nonnegative value `n / 10 ^ k` half up to
5 fractional digits, written independently of the code path split used by
`quantize5Nat`: it is the floor of `n / 10 ^ k * 10 ^ 5 + 1 / 2`. -/
def specRound5 (n k : Nat) : Nat := (2 * n * 10 ^ 5 + 10 ^ k) / (2 * 10 ^ k)

/-- Error raised by `parse_user_rate`; one constructor per raise site (the two
negative checks share one message in the source but are distinct sites). -/
inductive RateParseErr where
  | negativeRate
  | badFormat
  | tooFewDigits
  | invalidDecimal
  | negativeValue
  | outOfRange
deriving DecidableEq

/-- Message text attached to each raise site in the source. -/
def RateParseErr.msg : RateParseErr → String
  | .negativeRate => "Rate cannot be negative."
  | .badFormat => "Formatting should be 0.xxxxx (must start with 0. and use digits)."
  | .tooFewDigits => "Formatting should be 0.xxxxx (needs at least 5 digits after the decimal)."
  | .invalidDecimal => "That rate isn't a valid decimal number."
  | .negativeValue => "Rate cannot be negative."
  | .outOfRange => "Rate must be less than 1.00000 (prices should start with 0.xxxxx)."

/-- The regex `RATE_INPUT_RE`, that is `^0\.(\d+)$`, returning group 1. -/
def rateInputMatch : List Char → Option (List Char)
  | c1 :: c2 :: rest =>
      if c1 = '0' && c2 = '.' then
        if rest.isEmpty then none
        else if rest.all isDig then some rest else none
      else none
  | _ => none

/-- Embedding of `parse_user_rate` (src/energybot.py lines 51-84).  The result
is the canonical rate in units of 10^(-5). -/
def parse_user_rate (raw : String) : Except RateParseErr Nat :=
  let s := pyStrip raw.data
  if s.head? = some '-' then .error .negativeRate
  else
    match rateInputMatch s with
    | none => .error .badFormat
    | some frac =>
        if frac.length < 5 then .error .tooFewDigits
        else
          match decimalOfChars s with
          | none => .error .invalidDecimal
          | some d =>
              if d.num < 0 then .error .negativeValue
              else if (10 : Int) ^ d.exp10 ≤ d.num then .error .outOfRange
              else .ok (quantize5Nat d)

/-- A JSON scalar as the offer feed delivers it to the rate fields: either a
string or a number; either way `Decimal(str(val))` sees its decimal text. -/
inductive JsonVal where
  | jstr (s : String)
  | jnum (s : String)
deriving DecidableEq

/-- Python `str(val)` on a feed rate value. -/
def pyStr : JsonVal → String
  | .jstr s => s
  | .jnum s => s

/-- Raw offer record as delivered by the feed: every field optional, `none`
standing for an absent key or a `null` value. `id` carries the `str()` image
of the raw identifier. -/
structure RawOffer where
  id : Option String
  supplier : Option String
  title : Option String
  offerType : Option String
  termOfOffer : Option String
  fees : Option (List String)
  recLabel : Option String
  standardOffer : Option Bool
  rate : Option JsonVal
  blendedRate : Option JsonVal
  contentUrl : Option String
  offerLinkUri : Option String
deriving DecidableEq

/-- Raw offer with every field absent. -/
def RawOffer.empty : RawOffer :=
  ⟨none, none, none, none, none, none, none, none, none, none, none, none⟩

/-- Embedding of `parse_offer_rate` (src/energybot.py lines 87-108): prefer
`rate` over `blendedRate`, parse the decimal text, keep only `0 ≤ d < 1`,
quantize to 5 digits half up; `none` on a missing field or a parse failure. -/
def parse_offer_rate (obj : RawOffer) : Option Nat :=
  match (match obj.rate with | some v => some v | none => obj.blendedRate) with
  | none => none
  | some v =>
      match decimalOfChars (pyStrip (pyStr v).data) with
      | none => none
      | some d =>
          if d.num < 0 || (10 : Int) ^ d.exp10 ≤ d.num then none
          else some (quantize5Nat d)

/-- Decimal digit characters of a positive numeral, via fuel-based recursion. -/
def natDigitsAux : Nat → Nat → List Char
  | 0, _ => []
  | _ + 1, 0 => []
  | fuel + 1, n + 1 =>
      natDigitsAux fuel ((n + 1) / 10) ++ [Char.ofNat (48 + (n + 1) % 10)]

/-- Decimal numeral of a natural number. -/
def natStr (n : Nat) : String :=
  if n = 0 then "0" else ⟨natDigitsAux (n + 1) n⟩

/-- Python `f-string` formatting `f"{d:.5f}"` of a canonical rate given in
units of 10^(-5): integer part, dot, then exactly five fractional digits. -/
def fmt5 (n : Nat) : String :=
  let frac := natStr (n % 100000)
  natStr (n / 100000) ++ "." ++ ⟨List.replicate (5 - frac.length) '0'⟩ ++ frac

/-- Normalized offer entity built by `fetch_offers`; `rate_dec` is the
canonical rate in units of 10^(-5). -/
structure Offer where
  id : String
  supplier : String
  title : String
  offerType : String
  termOfOffer : String
  fees : List String
  recLabel : Option String
  standardOffer : Bool
  rate_dec : Nat
  rate_str : String
  energizect_url : Option String
  enroll_url : Option String
deriving DecidableEq

/-- Python truthiness-based fallback `a or b` on optional strings: the empty
string is falsy, so it falls through to the alternative. -/
def pyOrStr (a : Option String) (b : String) : String :=
  match a with
  | some s => if s = "" then b else s
  | none => b

/-- The `startswith("/")` test on the `contentUrl` value. -/
def startsWithSlash (s : String) : Bool :=
  match s.data with
  | '/' :: _ => true
  | _ => false

/-- Normalization of a single raw record (body of the loop in `fetch_offers`,
src/energybot.py lines 185-207): `none` when the rate is unusable. -/
def normOne (o : RawOffer) : Option Offer :=
  match parse_offer_rate o with
  | none => none
  | some rdec =>
      let contentUrl := o.contentUrl.getD ""
      some
        { id := o.id.getD ""
          supplier := pyOrStr o.supplier (pyOrStr o.title "Unknown Supplier")
          title := pyOrStr o.title (pyOrStr o.supplier "Offer")
          offerType := pyOrStr o.offerType "Unknown"
          termOfOffer := pyOrStr o.termOfOffer "Unknown term"
          fees := o.fees.getD []
          recLabel := o.recLabel
          standardOffer := o.standardOffer.getD false
          rate_dec := rdec
          rate_str := fmt5 rdec
          energizect_url :=
            if startsWithSlash contentUrl then
              some ("https://www.energizect.com" ++ contentUrl)
            else none
          enroll_url := o.offerLinkUri }

/-- Ascending comparison on the canonical rate, the sort key of
`offers.sort(key=lambda x: x["rate_dec"])`. -/
def rateLE (a b : Offer) : Prop := a.rate_dec ≤ b.rate_dec

instance : DecidableRel rateLE := fun a b => Nat.decLe a.rate_dec b.rate_dec

instance : IsTotal Offer rateLE := ⟨fun a b => Nat.le_total a.rate_dec b.rate_dec⟩

instance : IsTrans Offer rateLE := ⟨fun _ _ _ => Nat.le_trans⟩

/-- Python `list.sort` is an ascending stable sort; a stable sort is uniquely
determined by its key order, so insertion sort is an exact model of it. -/
def rank (l : List Offer) : List Offer := l.insertionSort rateLE

/-- Embedding of `fetch_offers` after the network transfer (src/energybot.py
lines 182-210): normalize the concatenated raw records, drop the unusable
ones, and sort ascending by rate.  The raw list stands for
`results ++ compareResults`. -/
def fetch_offers (raws : List RawOffer) : List Offer :=
  rank (raws.filterMap normOne)

/-- Rounding of a nonnegative amount of 10^(-5) dollars to whole cents, half
up: this is `quantize(Decimal("0.01"), rounding=ROUND_HALF_UP)` restricted to
the nonnegative branch in which `money_savings_per_month` uses it. -/
def centsHalfUp (n : Nat) : Nat := (2 * n + 1000) / (2 * 1000)

/-- Embedding of `money_savings_per_month` (src/energybot.py lines 213-217).
Rates are in units of 10^(-5) dollars per kWh, the result in cents; the
`monthly_kwh` parameter is a Python `int` and defaults to 750 at every call
site.  A positive difference times a negative usage would make the quantized
product negative; the source quantizes with ROUND_HALF_UP, which rounds ties
away from zero, so the negative branch mirrors the nonnegative one. -/
def money_savings_per_month (user_rate best_rate : Int) (monthly_kwh : Int) : Int :=
  let diff := user_rate - best_rate
  if diff ≤ 0 then 0
  else
    let prod := diff * monthly_kwh
    if 0 ≤ prod then (centsHalfUp prod.toNat : Int)
    else -(centsHalfUp (-prod).toNat : Int)

/-- Persisted per-user record (one value of the `rates.json` object).  For
the `last_notified_*` fields the outer `Option` is key presence and the inner
one is the JSON value, since `dict.setdefault` distinguishes a missing key
from a key holding `null` while `dict.get` does not. -/
structure StoredRec where
  rate : Option String
  notify_channel_id : Option Int
  notify_guild_id : Option (Option Int)
  last_notified_offer_id : Option (Option String)
  last_notified_rate : Option (Option String)
deriving DecidableEq

/-- Record with every key absent, as `data.setdefault(uid, {})` creates it. -/
def StoredRec.empty : StoredRec := ⟨none, none, none, none, none⟩

/-- Assignment `data[uid] = rec` on a Python dict, the store being an
association list in dict insertion order: replace in place when the key
exists, append otherwise. -/
def storeUpdate : List (String × StoredRec) → String → StoredRec → List (String × StoredRec)
  | [], uid, rec => [(uid, rec)]
  | (k, v) :: rest, uid, rec =>
      if k = uid then (uid, rec) :: rest else (k, v) :: storeUpdate rest uid rec

/-- Python `dict.setdefault(key, None)` on an optional-valued field: set the
key to `null` only when it is absent, keep any present value. -/
def setdefaultNone (x : Option (Option String)) : Option (Option String) :=
  some (x.getD none)

/-- Embedding of the `setrate` command handler (src/energybot.py lines
271-301): parse strictly, then store the canonical rate together with the
channel context, applying `setdefault` to the two notification-state keys.
On a parse failure the store is untouched and the error is reported. -/
def setrate (store : List (String × StoredRec)) (uid : String) (channelId : Int)
    (guildId : Option Int) (raw : String) : Except RateParseErr (List (String × StoredRec)) :=
  match parse_user_rate raw with
  | .error e => .error e
  | .ok d =>
      let info := ((store.lookup uid).getD StoredRec.empty)
      let info :=
        { info with
            rate := some (fmt5 d)
            notify_channel_id := some channelId
            notify_guild_id := some guildId
            last_notified_offer_id := setdefaultNone info.last_notified_offer_id
            last_notified_rate := setdefaultNone info.last_notified_rate }
      .ok (storeUpdate store uid info)

/-- Delivery error classes of the chat library relevant to the handlers:
`Forbidden` is a subclass of `HTTPException`; `httpOther` stands for any
`HTTPException` that is not a `Forbidden`. -/
inductive DErr where
  | forbidden
  | httpOther
deriving DecidableEq

/-- Kind of object `bot.get_channel` returns for an id. -/
inductive ChanKind where
  | textLike
  | other
deriving DecidableEq

/-- How a notification ended up delivered, when `send_notification` returned. -/
inductive SendOutcome where
  | sentChannel
  | sentDM
  | dropped
deriving DecidableEq

/-- Environment of one `send_notification` call: the channel registry of the
bot and the outcomes the chat platform would give to the two send attempts. -/
structure DeliveryEnv where
  getChannel : Int → Option ChanKind
  channelSend : Except DErr Unit
  dmSend : Except DErr Unit

/-- Direct-message fallback of `send_notification`: `fetch_user` plus
`user.send` under a handler that catches only `discord.Forbidden`; any other
`HTTPException` escapes. -/
def dm_fallback (env : DeliveryEnv) : Except DErr SendOutcome :=
  match env.dmSend with
  | .ok _ => .ok .sentDM
  | .error .forbidden => .ok .dropped
  | .error .httpOther => .error .httpOther

/-- The channel resolution of `send_notification`: look up the remembered
channel id in the bot registry, skipping the lookup when the id is falsy. -/
def chan_lookup (env : DeliveryEnv) (info : StoredRec) : Option ChanKind :=
  match info.notify_channel_id with
  | some cid => if cid = 0 then none else env.getChannel cid
  | none => none

/-- Embedding of `send_notification` (src/energybot.py lines 220-243): try
the remembered channel when it is a text channel or thread, catching both
`Forbidden` and `HTTPException` there, then fall back to a direct message. -/
def send_notification (env : DeliveryEnv) (info : StoredRec) : Except DErr SendOutcome :=
  match chan_lookup env info with
  | some .textLike =>
      match env.channelSend with
      | .ok _ => .ok .sentChannel
      | .error _ => dm_fallback env
  | _ => dm_fallback env

/-- The strict comparison `o["rate_dec"] < user_rate` between a canonical
offer rate in units of 10^(-5) and an exact user-rate decimal, cleared of
denominators. -/
def offerBeatsRate (o : Offer) (u : Dec) : Bool :=
  decide ((o.rate_dec : Int) * 10 ^ u.exp10 < u.num * 10 ^ 5)

/-- Body of the per-user loop of `daily_check` (src/energybot.py lines
365-408): skip users without a parseable rate, find the offers strictly
cheaper than the user rate, suppress a duplicate of the last notified
`(id, rate_str)` pair, otherwise send and record the new pair.  An escaping
delivery error aborts with the record unchanged, since the state update
follows the `await`. -/
def daily_user (offers : List Offer) (env : DeliveryEnv) (rec : StoredRec) :
    Except DErr (Option Offer × StoredRec) :=
  match rec.rate with
  | none => .ok (none, rec)
  | some rstr =>
      match decimalOfChars (pyStrip rstr.data) with
      | none => .ok (none, rec)
      | some u =>
          match offers.filter (fun o => offerBeatsRate o u) with
          | [] => .ok (none, rec)
          | best :: _ =>
              if rec.last_notified_offer_id.getD none == some best.id
                  && rec.last_notified_rate.getD none == some best.rate_str then
                .ok (none, rec)
              else
                match send_notification env rec with
                | .error e => .error e
                | .ok _ =>
                    .ok (some best,
                      { rec with
                          last_notified_offer_id := some (some best.id)
                          last_notified_rate := some (some best.rate_str) })

/-- Iteration of `daily_user` over the store in order, accumulating the fired
notifications and the updated records; the flag is false when an escaping
delivery error ended the loop early, in which case the remaining users are
left unprocessed. -/
def run_users (offers : List Offer) (env : String → DeliveryEnv) :
    List (String × StoredRec) →
      List (String × Offer) × List (String × StoredRec) × Bool
  | [] => ([], [], true)
  | (uid, rec) :: rest =>
      match daily_user offers (env uid) rec with
      | .error _ => ([], (uid, rec) :: rest, false)
      | .ok (notif, rec2) =>
          let (ns, rs, c) := run_users offers env rest
          (match notif with
            | some o => (uid, o) :: ns
            | none => ns,
           (uid, rec2) :: rs, c)

/-- Observable outcome of one scheduled pass: the notifications that were
sent and the store contents written by `save_data`, or `none` when the file
was not written (the pass returned early or died on an escaping exception). -/
structure PassOutcome where
  notifs : List (String × Offer)
  persisted : Option (List (String × StoredRec))
deriving DecidableEq

/-- Embedding of the `daily_check` task body (src/energybot.py lines
350-410): return early on an empty store, a failed fetch, or an empty offer
list, in each case without writing; otherwise process every user and persist
the updated snapshot once, unless an escaping delivery exception killed the
task first. -/
def daily_check (store : List (String × StoredRec))
    (fetched : Except Unit (List RawOffer)) (env : String → DeliveryEnv) : PassOutcome :=
  match store with
  | [] => ⟨[], none⟩
  | _ :: _ =>
      match fetched with
      | .error _ => ⟨[], none⟩
      | .ok raws =>
          match fetch_offers raws with
          | [] => ⟨[], none⟩
          | o :: os =>
              let (ns, rs, c) := run_users (o :: os) env store
              ⟨ns, if c then some rs else none⟩

/-- The record produced for one user by a completed pass, read off from
`daily_user` with the unchanged record on the error branch. -/
def daily_user_rec (offers : List Offer) (env : DeliveryEnv) (rec : StoredRec) : StoredRec :=
  match daily_user offers env rec with
  | .ok (_, r) => r
  | .error _ => rec

/-- The notification fired for one user by a completed pass. -/
def daily_user_notif (offers : List Offer) (env : DeliveryEnv) (rec : StoredRec) : Option Offer :=
  match daily_user offers env rec with
  | .ok (n, _) => n
  | .error _ => none

/-- Check that an exceptional computation returned rather than raised. -/
def exceptOk {ε α : Type} : Except ε α → Bool
  | .ok _ => true
  | .error _ => false

/-- Sample record of a user with rate 0.15000 who was last notified about
offer id A at rate 0.10000. -/
def recNotified : StoredRec :=
  { rate := some "0.15000"
    notify_channel_id := some 7
    notify_guild_id := some (some 9)
    last_notified_offer_id := some (some "A")
    last_notified_rate := some (some "0.10000") }

/-- Sample offer with id A at the previously notified rate 0.10000. -/
def offerA10 : Offer := ⟨"A", "s", "t", "o", "tm", [], none, false, 10000, "0.10000", none, none⟩

/-- Sample offer with id A repriced to 0.09000. -/
def offerA9 : Offer := ⟨"A", "s", "t", "o", "tm", [], none, false, 9000, "0.09000", none, none⟩

/-- Sample offer at rate 0.20000, not cheaper than the sample user rate. -/
def offerZ20 : Offer := ⟨"Z", "s", "t", "o", "tm", [], none, false, 20000, "0.20000", none, none⟩

/-- Sample offers at rates 0.15, 0.10, 0.10, 0.20 in feed-arrival order. -/
def offerS15 : Offer := ⟨"s1", "e", "t", "o", "tm", [], none, false, 15000, "0.15000", none, none⟩

/-- Second sample offer for the stable-sort example, first of the 0.10 tie. -/
def offerS10a : Offer := ⟨"s2", "e", "t", "o", "tm", [], none, false, 10000, "0.10000", none, none⟩

/-- Third sample offer for the stable-sort example, second of the 0.10 tie. -/
def offerS10b : Offer := ⟨"s3", "e", "t", "o", "tm", [], none, false, 10000, "0.10000", none, none⟩

/-- Fourth sample offer for the stable-sort example. -/
def offerS20 : Offer := ⟨"s4", "e", "t", "o", "tm", [], none, false, 20000, "0.20000", none, none⟩

/-- Delivery environment in which every attempt succeeds by direct message. -/
def envDeliverOK : DeliveryEnv := ⟨fun _ => none, .ok (), .ok ()⟩

/-- Delivery environment in which the user has no usable channel and the
direct message fails with an `HTTPException` that is not a `Forbidden`. -/
def envDMHttpErr : DeliveryEnv := ⟨fun _ => none, .ok (), .error .httpOther⟩

/-- Delivery environment in which the channel send is forbidden and the
direct message is blocked by the privacy settings of the user. -/
def envAllForbidden : DeliveryEnv :=
  ⟨fun _ => some .textLike, .error .forbidden, .error .forbidden⟩

/-- Raw feed record carrying only an id and a rate of 0.10000. -/
def rawOffer10 : RawOffer := { RawOffer.empty with id := some "x", rate := some (.jstr "0.10000") }

/-- Raw feed record whose rate field does not parse as a number. -/
def rawOfferJunk : RawOffer := { RawOffer.empty with rate := some (.jstr "junk") }

/-! Helper lemmas about digit strings and half-up rounding. -/

theorem digitsValAux_lt : ∀ (ds : List Char) (a : Nat), ds.all isDig = true →
    List.foldl (fun x c => 10 * x + (c.toNat - 48)) a ds < (a + 1) * 10 ^ ds.length := by
  intro ds
  induction ds with
  | nil => intro a _; simp
  | cons c t ih =>
      intro a hall
      simp only [List.all_cons, Bool.and_eq_true] at hall
      have hc : c.toNat - 48 ≤ 9 := by
        have h1 := hall.1
        simp only [isDig, Bool.and_eq_true, decide_eq_true_eq] at h1
        omega
      have h1 := ih (10 * a + (c.toNat - 48)) hall.2
      simp only [List.foldl_cons, List.length_cons]
      calc List.foldl (fun x c => 10 * x + (c.toNat - 48)) (10 * a + (c.toNat - 48)) t
        < (10 * a + (c.toNat - 48) + 1) * 10 ^ t.length := h1
        _ ≤ ((a + 1) * 10) * 10 ^ t.length := Nat.mul_le_mul_right _ (by omega)
        _ = (a + 1) * 10 ^ (t.length + 1) := by ring

theorem digitsVal_lt (ds : List Char) (h : ds.all isDig = true) :
    digitsVal ds < 10 ^ ds.length := by
  have h1 := digitsValAux_lt ds 0 h
  simpa [digitsVal] using h1

theorem quantize5Nat_eq (n k : Nat) : quantize5Nat ⟨(n : Int), k⟩ = specRound5 n k := by
  unfold quantize5Nat specRound5
  simp only [Int.toNat_natCast]
  by_cases hk : k ≤ 5
  · rw [if_pos hk]
    have h5 : (10 : Nat) ^ 5 = 10 ^ k * 10 ^ (5 - k) := by
      rw [← pow_add]; congr 1; omega
    have hnum : 2 * n * 10 ^ 5 + 10 ^ k = 10 ^ k * (2 * (n * 10 ^ (5 - k)) + 1) := by
      rw [h5]; ring
    have hden : 2 * 10 ^ k = 10 ^ k * 2 := by ring
    rw [hnum, hden, Nat.mul_div_mul_left _ _ (Nat.pos_pow_of_pos k (by norm_num))]
    rw [Nat.mul_add_div (by norm_num)]
    simp
  · rw [if_neg hk]
    have h5 : (10 : Nat) ^ k = 10 ^ 5 * 10 ^ (k - 5) := by
      rw [← pow_add]; congr 1; omega
    have hnum : 2 * n * 10 ^ 5 + 10 ^ k = 10 ^ 5 * (2 * n + 10 ^ (k - 5)) := by
      rw [h5]; ring
    have hden : 2 * 10 ^ k = 10 ^ 5 * (2 * 10 ^ (k - 5)) := by
      rw [h5]; ring
    rw [hnum, hden, Nat.mul_div_mul_left _ _ (Nat.pos_pow_of_pos 5 (by norm_num))]

theorem specRound5_le (n k : Nat) (h : n < 10 ^ k) : specRound5 n k ≤ 10 ^ 5 := by
  unfold specRound5
  have hpos : 0 < 2 * 10 ^ k := by positivity
  have hlt : 2 * n * 10 ^ 5 + 10 ^ k < (10 ^ 5 + 1) * (2 * 10 ^ k) := by nlinarith
  have h2 := (Nat.div_lt_iff_lt_mul hpos).mpr hlt
  omega

theorem decimalOfChars_zeroDot (ds : List Char) (h : ds.all isDig = true) :
    decimalOfChars ('0' :: '.' :: ds) = some ⟨(digitsVal ds : Int), ds.length⟩ := by
  have e : decimalOfChars ('0' :: '.' :: ds) =
      (if ds.all isDig && (!(['0'] : List Char).isEmpty || !ds.isEmpty) then
        some ⟨sgn false (digitsVal ds), ds.length⟩ else none) := rfl
  rw [e, h]
  rfl

theorem rateInputMatch_eq_some {l frac : List Char} (h : rateInputMatch l = some frac) :
    l = '0' :: '.' :: frac ∧ frac.all isDig = true ∧ frac ≠ [] := by
  cases l with
  | nil => rw [show rateInputMatch [] = none from rfl] at h; cases h
  | cons c1 t =>
    cases t with
    | nil => rw [show rateInputMatch [c1] = none from rfl] at h; cases h
    | cons c2 rest =>
      have e : rateInputMatch (c1 :: c2 :: rest) =
          (if (decide (c1 = '0') && decide (c2 = '.')) = true then
            (if rest.isEmpty = true then none
             else if rest.all isDig = true then some rest else none)
          else none) := rfl
      rw [e] at h
      by_cases h1 : c1 = '0'
      · by_cases h2 : c2 = '.'
        · subst h1; subst h2
          rw [if_pos (by decide)] at h
          by_cases he : rest.isEmpty = true
          · rw [if_pos he] at h; cases h
          · rw [if_neg he] at h
            by_cases hd : rest.all isDig = true
            · rw [if_pos hd] at h
              injection h with h3
              subst h3
              refine ⟨rfl, hd, ?_⟩
              intro hc; subst hc; simp at he
            · rw [if_neg hd] at h; cases h
        · rw [if_neg (by simp [h2])] at h; cases h
      · rw [if_neg (by simp [h1])] at h; cases h

theorem parse_user_rate_strict {s : String} {ds : List Char}
    (hstrip : pyStrip s.data = '0' :: '.' :: ds)
    (hdig : ds.all isDig = true) (hlen : 5 ≤ ds.length) :
    parse_user_rate s = .ok (specRound5 (digitsVal ds) ds.length) := by
  unfold parse_user_rate
  rw [hstrip]
  rw [if_neg (by simp)]
  have hmatch : rateInputMatch ('0' :: '.' :: ds) = some ds := by
    have e : rateInputMatch ('0' :: '.' :: ds) =
        (if ds.isEmpty = true then none
         else if ds.all isDig = true then some ds else none) := rfl
    rw [e]
    rw [if_neg (by cases ds with | nil => simp at hlen | cons a t => simp)]
    rw [if_pos hdig]
  simp only [hmatch]
  rw [if_neg (by omega)]
  simp only [decimalOfChars_zeroDot ds hdig]
  have hbound : digitsVal ds < 10 ^ ds.length := digitsVal_lt ds hdig
  have hb2 : (digitsVal ds : Int) < (10 : Int) ^ ds.length := by exact_mod_cast hbound
  rw [if_neg (by omega)]
  rw [if_neg (not_le.mpr hb2)]
  rw [quantize5Nat_eq]

/-! Claim theorems. -/

/-- C1: evaluation of `setrate` at the failing input.  The claim (and the
comment in the source above the `setdefault` calls) says a successful
`setrate` leaves the dedup state Unnotified, with both `last_notified`
fields cleared; the code instead keeps the prior pair `("A", "0.10000")`
because `dict.setdefault` never overwrites an existing key.  The second
conjunct confirms the command text passed the strict parser, so this is a
successful `setrate`. -/
theorem c1_setrate_keeps_notified_state :
    setrate [("42", recNotified)] "42" 7 (some 9) "0.12000"
      = .ok [("42", { rate := some "0.12000", notify_channel_id := some 7,
                      notify_guild_id := some (some 9),
                      last_notified_offer_id := some (some "A"),
                      last_notified_rate := some (some "0.10000") })] ∧
    parse_user_rate "0.12000" = .ok 12000 := by decide

/-- C5 counterexample: the input 0.9999999 strips to `0.` followed by seven
digits with value below 1, so the claim applies to it, yet `parse_user_rate`
returns 1.00000 (100000 in units of 10^(-5)), violating the claimed bound
`v < 1`: the range check runs before rounding and rounding can carry into
the units place. -/
theorem c5_counterexample :
    pyStrip "0.9999999".data = '0' :: '.' :: ['9', '9', '9', '9', '9', '9', '9'] ∧
    ['9', '9', '9', '9', '9', '9', '9'].all isDig = true ∧
    5 ≤ ['9', '9', '9', '9', '9', '9', '9'].length ∧
    parse_user_rate "0.9999999" = .ok 100000 ∧
    ¬ 100000 < 10 ^ 5 := by decide

/-- C5 amended: for every input that strips to `0.` followed by at least 5
digits (its value is then automatically below 1), `parse_user_rate` succeeds
and returns the round-half-up of the input value to exactly 5 fractional
digits — `specRound5` is the independent rounding formula, the floor of the
value times 10^5 plus one half — and the result satisfies `0 ≤ v ≤ 1`
(in units of 10^(-5): at most 10^5; the original strict bound `v < 1` fails
only for inputs longer than 5 digits that round up to 1.00000); in
particular 0.123455 parses to 0.12346. -/
theorem c5_amended_strict_parse :
    (∀ (s : String) (ds : List Char),
        pyStrip s.data = '0' :: '.' :: ds →
        ds.all isDig = true →
        5 ≤ ds.length →
        parse_user_rate s = .ok (specRound5 (digitsVal ds) ds.length) ∧
        specRound5 (digitsVal ds) ds.length ≤ 10 ^ 5) ∧
    parse_user_rate "0.123455" = .ok 12346 := by
  constructor
  · intro s ds h1 h2 h3
    exact ⟨parse_user_rate_strict h1 h2 h3, specRound5_le _ _ (digitsVal_lt ds h2)⟩
  · decide

/-- C5 witness: the amended theorem applied at the concrete input 0.123455. -/
theorem c5_witness :
    parse_user_rate "0.123455" = .ok (specRound5 (digitsVal ['1', '2', '3', '4', '5', '5']) 6) ∧
    specRound5 (digitsVal ['1', '2', '3', '4', '5', '5']) 6 ≤ 10 ^ 5 :=
  c5_amended_strict_parse.1 "0.123455" ['1', '2', '3', '4', '5', '5']
    (by decide) (by decide) (by decide)

/-- C6 counterexample: the claim says 1.00000 is rejected as out of range,
but the format regex requires a leading `0.`, so the input never reaches the
range check and is rejected as bad format instead. -/
theorem c6_counterexample :
    parse_user_rate "1.00000" = .error .badFormat ∧
    ¬ parse_user_rate "1.00000" = .error .outOfRange := by decide

/-- C6 amended: the four rejection examples with the error kind the code
actually reports — 1.00000 fails as bad format, not out of range, because
the format rule rejects any input not starting with `0.` before the range
check can run — and the negative check preceding every other rule. -/
theorem c6_amended_error_kinds :
    parse_user_rate "0.1" = .error .tooFewDigits ∧
    parse_user_rate "-0.12345" = .error .negativeRate ∧
    parse_user_rate "1.00000" = .error .badFormat ∧
    parse_user_rate "abc" = .error .badFormat ∧
    (∀ s : String, (pyStrip s.data).head? = some '-' →
        parse_user_rate s = .error .negativeRate) := by
  refine ⟨by decide, by decide, by decide, by decide, ?_⟩
  intro s h
  unfold parse_user_rate
  rw [if_pos h]

/-- C6 witness: the negative-first rule applied at an input that fails both
the negative check and the format check, and is reported negative. -/
theorem c6_witness :
    (pyStrip " -abc".data).head? = some '-' ∧
    parse_user_rate " -abc" = .error .negativeRate :=
  ⟨by decide, c6_amended_error_kinds.2.2.2.2 " -abc" (by decide)⟩

/-- C10: every string the format regex accepts has value in `[0, 1)` before
rounding, so the negative-value and the value-at-least-1 branches after the
regex are unreachable: no input is ever reported out of range, and the
out-of-range text 1.00000 is rejected by the format rule instead. -/
theorem c10_out_of_range_unreachable :
    (∀ s : String,
        parse_user_rate s ≠ .error .outOfRange ∧
        parse_user_rate s ≠ .error .negativeValue) ∧
    parse_user_rate "1.00000" = .error .badFormat := by
  refine ⟨fun s => ?_, by decide⟩
  unfold parse_user_rate
  by_cases hneg : (pyStrip s.data).head? = some '-'
  · rw [if_pos hneg]; exact ⟨by decide, by decide⟩
  · rw [if_neg hneg]
    cases hm : rateInputMatch (pyStrip s.data) with
    | none => simp only [hm]; exact ⟨by decide, by decide⟩
    | some frac =>
        obtain ⟨hl2, hdig, _⟩ := rateInputMatch_eq_some hm
        simp only [hm]
        by_cases hlen : frac.length < 5
        · rw [if_pos hlen]; exact ⟨by decide, by decide⟩
        · rw [if_neg hlen]
          rw [hl2]
          simp only [decimalOfChars_zeroDot frac hdig]
          have hb2 : (digitsVal frac : Int) < (10 : Int) ^ frac.length := by
            exact_mod_cast digitsVal_lt frac hdig
          rw [if_neg (by omega), if_neg (not_le.mpr hb2)]
          exact ⟨by simp, by simp⟩

theorem filter_orderedInsert (v : Nat) (a : Offer) (l : List Offer) :
    (List.orderedInsert rateLE a l).filter (fun o => o.rate_dec == v)
      = if a.rate_dec = v then a :: l.filter (fun o => o.rate_dec == v)
        else l.filter (fun o => o.rate_dec == v) := by
  induction l with
  | nil =>
      by_cases h : a.rate_dec = v
      · rw [if_pos h]; simp [h]
      · rw [if_neg h]; simp [h]
  | cons b t ih =>
      simp only [List.orderedInsert]
      by_cases hab : rateLE a b
      · rw [if_pos hab]
        by_cases hav : a.rate_dec = v
        · rw [if_pos hav]; simp [List.filter_cons, hav]
        · rw [if_neg hav]; simp [List.filter_cons, hav]
      · rw [if_neg hab]
        have hlt : b.rate_dec < a.rate_dec := by
          simp only [rateLE, not_le] at hab; exact hab
        rw [List.filter_cons, ih]
        by_cases hav : a.rate_dec = v
        · have hbv : ¬ b.rate_dec = v := by omega
          simp [List.filter_cons, hav, hbv]
        · by_cases hbv : b.rate_dec = v <;> simp [List.filter_cons, hav, hbv]

theorem rank_filter_stable (v : Nat) (l : List Offer) :
    (rank l).filter (fun o => o.rate_dec == v) = l.filter (fun o => o.rate_dec == v) := by
  unfold rank
  induction l with
  | nil => rfl
  | cons a t ih =>
      simp only [List.insertionSort]
      rw [filter_orderedInsert]
      by_cases hav : a.rate_dec = v
      · rw [if_pos hav, ih]; simp [List.filter_cons, hav]
      · rw [if_neg hav, ih]; simp [List.filter_cons, hav]

/-- C7: ranking is the ascending stable sort of the normalized offers: the
result is sorted by `rate_dec`, is a permutation of the input, and for every
rate value the sublist of offers carrying that value is kept in feed-arrival
order (the filter characterization of stability); on the concrete feed-order
rates 0.15, 0.10, 0.10, 0.20 the ranked order is the first 0.10, the second
0.10, 0.15, 0.20. -/
theorem c7_rank_sorted_stable :
    (∀ l : List Offer, List.Sorted rateLE (rank l)) ∧
    (∀ l : List Offer, List.Perm (rank l) l) ∧
    (∀ (l : List Offer) (v : Nat),
        (rank l).filter (fun o => o.rate_dec == v) = l.filter (fun o => o.rate_dec == v)) ∧
    rank [offerS15, offerS10a, offerS10b, offerS20]
      = [offerS10a, offerS10b, offerS15, offerS20] :=
  ⟨fun l => List.sorted_insertionSort rateLE l,
   fun l => List.perm_insertionSort rateLE l,
   fun l v => rank_filter_stable v l,
   by decide⟩

theorem centsHalfUp_eq (n : Nat) : centsHalfUp n = (n + 500) / 1000 := by
  unfold centsHalfUp
  have h : 2 * n + 1000 = 2 * (n + 500) := by ring
  rw [h, Nat.mul_div_mul_left _ _ (by norm_num : 0 < 2)]

/-- C8 counterexample: the claim quantifies over every `monthlyUsage`, and
`monthly_kwh` is a Python int, but with a negative usage and a positive rate
difference the product is negative and is returned as such: the code floors
only the rate difference at zero, not the final amount. -/
theorem c8_counterexample :
    money_savings_per_month 15000 12000 (-750) = -2250 ∧
    money_savings_per_month 15000 12000 (-750) < 0 := by decide

/-- C8 amended: for every `userRate`, `offerRate` and nonnegative
`monthlyUsage` (the only call sites pass the default 750), the result is
never negative, is exactly zero when the rate difference is not positive,
and otherwise is the product rounded to whole cents half up — the floor of
the product in cents plus one half; in particular the two documented
examples 22.50 dollars and 0.00 hold (amounts in cents). -/
theorem c8_amended_savings :
    (∀ u b m : Int, 0 ≤ m →
        0 ≤ money_savings_per_month u b m ∧
        (u - b ≤ 0 → money_savings_per_month u b m = 0) ∧
        (0 < u - b →
            money_savings_per_month u b m = ((((u - b) * m).toNat + 500) / 1000 : Nat))) ∧
    money_savings_per_month 15000 12000 750 = 2250 ∧
    money_savings_per_month 10000 12000 750 = 0 := by
  refine ⟨?_, by decide, by decide⟩
  intro u b m hm
  unfold money_savings_per_month
  by_cases hd : u - b ≤ 0
  · rw [if_pos hd]
    exact ⟨le_refl 0, fun _ => rfl, fun hc => absurd hc (by omega)⟩
  · rw [if_neg hd]
    have hp : (0 : Int) ≤ (u - b) * m := mul_nonneg (by omega) hm
    rw [if_pos hp]
    refine ⟨Int.natCast_nonneg _, fun hc => absurd hc hd, fun _ => ?_⟩
    rw [centsHalfUp_eq]

/-- C8 witness: the amended theorem applied at the documented example, with
the usage hypothesis discharged at 750. -/
theorem c8_witness :
    0 ≤ money_savings_per_month 15000 12000 750 ∧
    money_savings_per_month 15000 12000 750
      = ((((15000 - 12000) * 750 : Int).toNat + 500) / 1000 : Nat) :=
  ⟨(c8_amended_savings.1 15000 12000 750 (by decide)).1,
   (c8_amended_savings.1 15000 12000 750 (by decide)).2.2 (by decide)⟩

theorem quantize5Nat_eq_toNat (n : Int) (k : Nat) :
    quantize5Nat ⟨n, k⟩ = specRound5 n.toNat k :=
  quantize5Nat_eq n.toNat k

/-- C9: the lenient offer-rate parser returns absence, never an error, when
both rate fields are missing, when the chosen text does not parse as a
decimal, and when the parsed value is negative or at least 1; on success it
returns the value rounded half up to 5 fractional digits (`specRound5` is
the independent rounding formula); `blendedRate` is consulted exactly when
`rate` is absent, and a string and a numeric carrier of the same decimal
text are interchangeable. -/
theorem c9_parse_offer_rate_lenient :
    (∀ obj : RawOffer, obj.rate = none → obj.blendedRate = none →
        parse_offer_rate obj = none) ∧
    (∀ (obj : RawOffer) (v : JsonVal), obj.rate = some v →
        (decimalOfChars (pyStrip (pyStr v).data) = none → parse_offer_rate obj = none) ∧
        (∀ d : Dec, decimalOfChars (pyStrip (pyStr v).data) = some d →
            (d.num < 0 ∨ (10 : Int) ^ d.exp10 ≤ d.num → parse_offer_rate obj = none) ∧
            (0 ≤ d.num → d.num < (10 : Int) ^ d.exp10 →
                parse_offer_rate obj = some (specRound5 d.num.toNat d.exp10)))) ∧
    (∀ obj : RawOffer, obj.rate = none →
        parse_offer_rate obj
          = parse_offer_rate { obj with rate := obj.blendedRate, blendedRate := none }) ∧
    (∀ s : String,
        parse_offer_rate { RawOffer.empty with rate := some (.jstr s) }
          = parse_offer_rate { RawOffer.empty with rate := some (.jnum s) }) := by
  refine ⟨?_, ?_, ?_, ?_⟩
  · intro obj h1 h2
    unfold parse_offer_rate
    simp only [h1, h2]
  · intro obj v hv
    refine ⟨?_, ?_⟩
    · intro hdec
      unfold parse_offer_rate
      simp only [hv, hdec]
    · intro d hdec
      refine ⟨?_, ?_⟩
      · intro hbad
        unfold parse_offer_rate
        simp only [hv, hdec]
        rw [if_pos (by simpa using hbad)]
      · intro hnn hlt
        unfold parse_offer_rate
        simp only [hv, hdec]
        rw [if_neg (by simp; omega)]
        obtain ⟨dn, dk⟩ := d
        rw [quantize5Nat_eq_toNat dn dk]
  · intro obj h1
    unfold parse_offer_rate
    simp only [h1]
    cases obj.blendedRate <;> rfl
  · intro s
    rfl

/-- C9 witness: the characterization applied at a concrete record carrying
the rate string 0.123455, discharging the parse and bound hypotheses. -/
theorem c9_witness :
    parse_offer_rate { RawOffer.empty with rate := some (.jstr "0.123455") }
      = some (specRound5 123455 6) :=
  ((c9_parse_offer_rate_lenient.2.1 _ (.jstr "0.123455") rfl).2 ⟨123455, 6⟩
      (by decide)).2 (by decide) (by decide)

/-- C2: the per-user dedup transition of the daily pass is exactly the three
cases of the claim, for every user whose stored rate parses: when no offer
beats the user rate the user is skipped with the record unchanged (a prior
Notified state is not cleared); when the cheapest beating offer carries the
stored `(id, rate_str)` pair the notification is suppressed and the record
unchanged; otherwise — in particular for the same id at a new rate or a new
id at the same rate — a notification for that offer fires and the record
moves to its pair, provided the notifier returned (the escaping-delivery
case is claim C4). -/
theorem c2_daily_dedup_transition :
    ∀ (offers : List Offer) (env : DeliveryEnv) (rec : StoredRec) (rstr : String) (u : Dec),
      rec.rate = some rstr →
      decimalOfChars (pyStrip rstr.data) = some u →
      ((∀ o ∈ offers, offerBeatsRate o u = false) →
          daily_user offers env rec = .ok (none, rec)) ∧
      (∀ best rest, offers.filter (fun o => offerBeatsRate o u) = best :: rest →
          rec.last_notified_offer_id.getD none = some best.id →
          rec.last_notified_rate.getD none = some best.rate_str →
          daily_user offers env rec = .ok (none, rec)) ∧
      (∀ best rest r2, offers.filter (fun o => offerBeatsRate o u) = best :: rest →
          ¬(rec.last_notified_offer_id.getD none = some best.id ∧
            rec.last_notified_rate.getD none = some best.rate_str) →
          send_notification env rec = .ok r2 →
          daily_user offers env rec
            = .ok (some best,
                { rec with last_notified_offer_id := some (some best.id),
                           last_notified_rate := some (some best.rate_str) })) := by
  intro offers env rec rstr u hr hu
  refine ⟨?_, ?_, ?_⟩
  · intro hnone
    have hfil : offers.filter (fun o => offerBeatsRate o u) = [] :=
      List.filter_eq_nil_iff.mpr (fun a ha => by simp [hnone a ha])
    unfold daily_user
    simp only [hr, hu, hfil]
  · intro best rest hfil h1 h2
    unfold daily_user
    simp only [hr, hu, hfil]
    rw [if_pos (by simp [h1, h2])]
  · intro best rest r2 hfil hne hs
    unfold daily_user
    simp only [hr, hu, hfil]
    rw [if_neg (by simp only [Bool.and_eq_true, beq_iff_eq]; exact hne)]
    simp only [hs]

/-- C2 witness: the three transition cases applied at concrete data: a user
notified of `(A, 0.10000)` with rate 0.15000 sees no transition for an offer
at 0.20000, a suppressed duplicate for `(A, 0.10000)`, and a fresh
notification for the repriced `(A, 0.09000)`. -/
theorem c2_witness :
    daily_user [offerZ20] envDeliverOK recNotified = .ok (none, recNotified) ∧
    daily_user [offerA10] envDeliverOK recNotified = .ok (none, recNotified) ∧
    daily_user [offerA9] envDeliverOK recNotified
      = .ok (some offerA9,
          { recNotified with last_notified_offer_id := some (some "A"),
                             last_notified_rate := some (some "0.09000") }) :=
  ⟨(c2_daily_dedup_transition [offerZ20] envDeliverOK recNotified "0.15000" ⟨15000, 5⟩
      (by decide) (by decide)).1
      (fun o ho => by rw [List.mem_singleton] at ho; rw [ho]; decide),
   (c2_daily_dedup_transition [offerA10] envDeliverOK recNotified "0.15000" ⟨15000, 5⟩
      (by decide) (by decide)).2.1 offerA10 [] (by decide) (by decide) (by decide),
   (c2_daily_dedup_transition [offerA9] envDeliverOK recNotified "0.15000" ⟨15000, 5⟩
      (by decide) (by decide)).2.2 offerA9 [] .sentDM (by decide)
      (by intro hc; exact absurd hc.2 (by decide)) (by decide)⟩

/-- C3: a failed offer fetch, or a fetch whose records normalize to an empty
offer list, ends the daily pass with no notification sent and no write of
the persisted store, so the stored mapping stays exactly as it was. -/
theorem c3_fetch_failure_leaves_store :
    ∀ (store : List (String × StoredRec)) (env : String → DeliveryEnv)
      (raws : List RawOffer),
      daily_check store (.error ()) env = ⟨[], none⟩ ∧
      (fetch_offers raws = [] → daily_check store (.ok raws) env = ⟨[], none⟩) := by
  intro store env raws
  constructor
  · cases store <;> rfl
  · intro h
    cases store with
    | nil => rfl
    | cons p rest =>
        unfold daily_check
        simp only [h]

/-- C3 witness: the empty-offers case applied at a store with one user and a
fetch payload whose only record has an unparseable rate. -/
theorem c3_witness :
    fetch_offers [rawOfferJunk] = [] ∧
    daily_check [("42", recNotified)] (.ok [rawOfferJunk]) (fun _ => envDeliverOK)
      = ⟨[], none⟩ :=
  ⟨by decide,
   (c3_fetch_failure_leaves_store [("42", recNotified)] (fun _ => envDeliverOK)
      [rawOfferJunk]).2 (by decide)⟩

theorem daily_user_isOk (offers : List Offer) (env : DeliveryEnv) (rec : StoredRec)
    (h : exceptOk (send_notification env rec) = true) :
    daily_user offers env rec
      = .ok (daily_user_notif offers env rec, daily_user_rec offers env rec) := by
  cases hd : daily_user offers env rec with
  | ok q =>
      unfold daily_user_notif daily_user_rec
      obtain ⟨a, b⟩ := q
      simp only [hd]
  | error e =>
      exfalso
      cases hs : send_notification env rec with
      | error e2 => rw [hs] at h; exact absurd h (by simp [exceptOk])
      | ok r =>
          unfold daily_user at hd
          cases hrt : rec.rate with
          | none => simp only [hrt] at hd; exact absurd hd (by simp)
          | some rstr =>
              cases hdc : decimalOfChars (pyStrip rstr.data) with
              | none => simp only [hrt, hdc] at hd; exact absurd hd (by simp)
              | some u =>
                  cases hfil : offers.filter (fun o => offerBeatsRate o u) with
                  | nil => simp only [hrt, hdc, hfil] at hd; exact absurd hd (by simp)
                  | cons best rest =>
                      simp only [hrt, hdc, hfil] at hd
                      by_cases hifc : (rec.last_notified_offer_id.getD none == some best.id
                          && rec.last_notified_rate.getD none == some best.rate_str) = true
                      · rw [if_pos hifc] at hd; exact absurd hd (by simp)
                      · rw [if_neg hifc] at hd
                        simp only [hs] at hd
                        exact absurd hd (by simp)

theorem run_users_all_ok (offers : List Offer) (env : String → DeliveryEnv) :
    ∀ store : List (String × StoredRec),
      (∀ p ∈ store, exceptOk (send_notification (env p.1) p.2) = true) →
      run_users offers env store =
        (store.filterMap
           (fun p => (daily_user_notif offers (env p.1) p.2).map (fun o => (p.1, o))),
         store.map (fun p => (p.1, daily_user_rec offers (env p.1) p.2)),
         true) := by
  intro store
  induction store with
  | nil => intro _; rfl
  | cons hd tl ih =>
      intro hall
      obtain ⟨uid, rec⟩ := hd
      have h1 : exceptOk (send_notification (env uid) rec) = true :=
        hall (uid, rec) (List.mem_cons_self _ _)
      unfold run_users
      simp only [daily_user_isOk offers (env uid) rec h1]
      simp only [ih (fun p hp => hall p (List.mem_cons_of_mem _ hp))]
      cases hn : daily_user_notif offers (env uid) rec <;>
        simp [List.filterMap_cons, hn]

/-- C4 counterexample: the claim says any delivery failure is swallowed and
the pass still persists, but an `HTTPException` other than `Forbidden` on
the direct-message fallback escapes `send_notification`: at a store with one
user due a notification, the pass dies, nothing is persisted, and the state
does not advance. -/
theorem c4_counterexample :
    send_notification envDMHttpErr recNotified = .error .httpOther ∧
    fetch_offers [rawOffer10] ≠ [] ∧
    daily_check [("42", recNotified)] (.ok [rawOffer10]) (fun _ => envDMHttpErr)
      = ⟨[], none⟩ := by decide

/-- C4 amended: a delivery failure is swallowed whenever the direct-message
fallback returns or fails with `Forbidden` (the channel attempt may fail in
any way); under that condition across the store, a nonempty pass with offers
processes every user independently, every due state transition happens, and
the updated snapshot is persisted once.  A non-`Forbidden` HTTP error on the
direct-message fallback is the one delivery failure that instead escapes and
aborts the pass. -/
theorem c4_amended_delivery :
    (∀ (env : DeliveryEnv) (rec : StoredRec),
        env.dmSend = .ok () ∨ env.dmSend = .error .forbidden →
        exceptOk (send_notification env rec) = true) ∧
    (∀ (store : List (String × StoredRec)) (env : String → DeliveryEnv)
        (raws : List RawOffer),
        (∀ p ∈ store, exceptOk (send_notification (env p.1) p.2) = true) →
        store ≠ [] →
        fetch_offers raws ≠ [] →
        daily_check store (.ok raws) env =
          ⟨store.filterMap (fun p =>
              (daily_user_notif (fetch_offers raws) (env p.1) p.2).map (fun o => (p.1, o))),
           some (store.map
              (fun p => (p.1, daily_user_rec (fetch_offers raws) (env p.1) p.2)))⟩) := by
  constructor
  · intro env rec hdm
    have hdmok : exceptOk (dm_fallback env) = true := by
      rcases hdm with h | h <;> simp [dm_fallback, h, exceptOk]
    unfold send_notification
    cases hch : chan_lookup env rec with
    | none => simpa using hdmok
    | some k =>
        cases k with
        | other => simpa using hdmok
        | textLike =>
            cases hcs : env.channelSend with
            | ok r => simp [hcs, exceptOk]
            | error e => simpa [hcs] using hdmok
  · intro store env raws hall hne hofs
    cases store with
    | nil => exact absurd rfl hne
    | cons p rest =>
        unfold daily_check
        cases hfo : fetch_offers raws with
        | nil => exact absurd hfo hofs
        | cons o os =>
            simp only [hfo]
            simp only [run_users_all_ok (o :: os) env (p :: rest) hall]
            simp

/-- C4 witness: the amended theorem applied at a one-user store due a
notification, with an environment whose direct messages succeed; the pass
persists the advanced state. -/
theorem c4_witness :
    daily_check [("42", recNotified)] (.ok [rawOffer10]) (fun _ => envDeliverOK)
      = ⟨[("42", recNotified)].filterMap (fun p =>
            (daily_user_notif (fetch_offers [rawOffer10]) ((fun _ => envDeliverOK) p.1) p.2).map
              (fun o => (p.1, o))),
         some ([("42", recNotified)].map (fun p =>
            (p.1, daily_user_rec (fetch_offers [rawOffer10]) ((fun _ => envDeliverOK) p.1) p.2)))⟩ :=
  c4_amended_delivery.2 [("42", recNotified)] (fun _ => envDeliverOK) [rawOffer10]
    (fun p hp => by rw [List.mem_singleton] at hp; rw [hp]; decide)
    (by decide) (by decide)

end EnergyBot
